import Mathlib

/-!
Verification development for the document ingestion and compression pipeline
of the UnitOptimizer repository.

The embedding models, faithfully to the TypeScript source:

* `compressText` (src/server/fileProcessing.ts, lines 45-94): the text
  compressor.  JavaScript strings are modelled as `String` (logically
  `List Char`); each regex `replace` of the source is a dedicated
  recursive function over `List Char` implementing the global,
  leftmost, greedy-match semantics of the corresponding JS regex.
* `chunkText` / `extractTextFromFile` (same file, lines 27-37 and
  100-266): the extraction orchestrator.  External effects (temp-file
  write, the per-format extraction commands, `unlink`) are modelled by
  an environment `Env` recording the outcome each external operation
  would have; the model returns the produced `FileContentResult`
  together with whether the temporary artifact is still on disk when
  the call returns, and the ordered list of extraction methods that
  were attempted.
* `processBatch` and the surrounding upload loop
  (src/server/routes.ts, lines 126-190): batching of uploads in groups
  of five, `Promise.all` rejection semantics (first failing file in
  batch order), and which files reach storage.
-/

/-! ## The JavaScript whitespace class `\s` -/

/-- Character class matched by `\s` in a JavaScript regular expression:
space, tab, LF, VT, FF, CR, NBSP, Ogham space mark, the U+2000..U+200A
spaces, LS, PS, NNBSP, MMSP, ideographic space and the BOM. -/
def isWsJS (c : Char) : Bool :=
  c = ' ' || c = '\t' || c = '\n' || c = '\r' || c = '\x0B' || c = '\x0C' ||
  c = '\u00A0' || c = '\u1680' || ('\u2000' ≤ c && c ≤ '\u200A') ||
  c = '\u2028' || c = '\u2029' || c = '\u202F' || c = '\u205F' ||
  c = '\u3000' || c = '\uFEFF'

/-! ## The four regex replaces of compressText, step 1 -/

/-- `text.replace(/\r\n/g, '\n')`: every (leftmost, non-overlapping)
occurrence of CR LF becomes LF. -/
def replaceCRLF : List Char → List Char
  | [] => []
  | [c] => [c]
  | a :: b :: rest =>
    if a = '\r' && b = '\n' then '\n' :: replaceCRLF rest
    else a :: replaceCRLF (b :: rest)

/-- Worker for `replace(/\s+/g, ' ')`.  The flag records whether the
previous character belonged to a whitespace run whose single
replacement space has already been emitted. -/
def collapseWSAux : Bool → List Char → List Char
  | _, [] => []
  | prevWs, c :: rest =>
    if isWsJS c then
      if prevWs then collapseWSAux true rest
      else ' ' :: collapseWSAux true rest
    else c :: collapseWSAux false rest

/-- `text.replace(/\s+/g, ' ')`: every maximal run of whitespace
characters becomes a single space. -/
def collapseWS (s : List Char) : List Char := collapseWSAux false s

/-- Worker for `replace(/\n\s+/g, '\n')`.  The flag records whether we
are currently consuming the greedy `\s+` tail of a match whose `\n` has
already been emitted. -/
def replaceNlWsAux : Bool → List Char → List Char
  | _, [] => []
  | skip, c :: rest =>
    if skip && isWsJS c then replaceNlWsAux true rest
    else if c = '\n' then '\n' :: replaceNlWsAux true rest
    else c :: replaceNlWsAux false rest

/-- Replacement text emitted for a run of `n` consecutive newlines under
`replace(/\n{3,}/g, '\n\n')`: runs of three or more collapse to two. -/
def emitRun (n : Nat) : List Char :=
  if 3 ≤ n then ['\n', '\n'] else List.replicate n '\n'

/-- Worker for `replace(/\n{3,}/g, '\n\n')`; `n` counts the newlines of
the current run. -/
def replaceNl3Aux : Nat → List Char → List Char
  | n, [] => emitRun n
  | n, c :: rest =>
    if c = '\n' then replaceNl3Aux (n + 1) rest
    else emitRun n ++ c :: replaceNl3Aux 0 rest

/-- Step 1 of `compressText`: the four chained `replace` calls of
fileProcessing.ts lines 47-50, in source order. -/
def normData (d : List Char) : List Char :=
  replaceNl3Aux 0 (replaceNlWsAux false (collapseWS (replaceCRLF d)))

/-! ## Paragraph split and join -/

/-- Worker for `compressed.split('\n\n')`; `acc` holds the characters of
the current field in reverse. -/
def splitAux (acc : List Char) : List Char → List (List Char)
  | [] => [acc.reverse]
  | [c] => [(c :: acc).reverse]
  | a :: b :: rest =>
    if a = '\n' && b = '\n' then acc.reverse :: splitAux [] rest
    else splitAux (a :: acc) (b :: rest)

/-- `s.split('\n\n')` of JavaScript: fields between the (leftmost,
non-overlapping) occurrences of a blank line. -/
def splitOnBlank (s : List Char) : List (List Char) := splitAux [] s

/-- `finalParagraphs.flatten('\n\n')`. -/
def joinBlank : List (List Char) → List Char
  | [] => []
  | [p] => p
  | p :: q :: rest => p ++ '\n' :: '\n' :: joinBlank (q :: rest)

/-! ## Substring test (JavaScript `String.prototype.includes`) -/

/-- `startsWithL n h`: `n` is an initial segment of `h`. -/
def startsWithL : List Char → List Char → Bool
  | [], _ => true
  | _ :: _, [] => false
  | a :: as, b :: bs => a = b && startsWithL as bs

/-- `hay.includes(needle)` of JavaScript: `n` occurs contiguously in
`h`. -/
def hasSubstr (n : List Char) : List Char → Bool
  | [] => startsWithL n []
  | c :: rest => startsWithL n (c :: rest) || hasSubstr n rest

/-! ## Steps 2-6 of compressText -/

/-- The loop of fileProcessing.ts lines 57-66: drop paragraphs shorter
than 10 characters, then drop exact duplicates, keeping first
occurrences in order.  `seen` is the `uniqueParagraphs` set. -/
def dedupFilter (seen : List (List Char)) : List (List Char) → List (List Char)
  | [] => []
  | p :: rest =>
    if p.length < 10 then dedupFilter seen rest
    else if p ∈ seen then dedupFilter seen rest
    else p :: dedupFilter (p :: seen) rest

/-- Keyword list of the relevance filter (lines 74-83). -/
def keywords : List String :=
  ["standard", "objective", "learn", "student", "assessment",
   "skill", "concept", "understand", "analyze", "evaluate"]

/-- Relevance predicate of step 3 (lines 70-87): a lowercase keyword
occurs in the paragraph, or the paragraph is longer than 100
characters.  `Char.toLower` models `toLowerCase` (the keywords are all
ASCII, where the two agree). -/
def keyPred (p : List Char) : Bool :=
  keywords.any (fun k => hasSubstr k.data (p.map Char.toLower)) ||
    decide (100 < p.length)

/-- Steps 3 and 5 of `compressText` (lines 70-90): apply the relevance
filter; if it keeps fewer than 5 paragraphs, fall back to the whole
deduplicated list. -/
def finalParas (filtered : List (List Char)) : List (List Char) :=
  if (filtered.filter keyPred).length < 5 then filtered
  else filtered.filter keyPred

/-- `compressText` of fileProcessing.ts lines 45-94: normalize, split
into paragraphs, drop short and duplicate paragraphs, relevance-filter
with fallback, join with blank lines. -/
def compressText (s : String) : String :=
  String.mk (joinBlank (finalParas (dedupFilter [] (splitOnBlank (normData s.data)))))

/-- Number of blank-line-delimited paragraphs of a string
(`s.split('\n\n').length`). -/
def paragraphCount (s : String) : Nat := (splitOnBlank s.data).length

/-! ## Normal form of compressText

Because `replace(/\s+/g, ' ')` turns every whitespace character —
newlines included — into a space, the normalized text contains no
newline at all, so the split on blank lines always yields exactly one
paragraph: the whole whitespace-collapsed input. -/

theorem collapseWSAux_mem (s : List Char) :
    ∀ (b : Bool), ∀ c ∈ collapseWSAux b s, c = ' ' ∨ isWsJS c = false := by
  induction s with
  | nil => intro b c hc; simp [collapseWSAux] at hc
  | cons a rest ih =>
    intro b c hc
    by_cases ha : isWsJS a
    · cases b with
      | true =>
        simp [collapseWSAux, ha] at hc
        exact ih true c hc
      | false =>
        simp [collapseWSAux, ha] at hc
        rcases hc with h | h
        · exact Or.inl h
        · exact ih true c h
    · simp [collapseWSAux, ha] at hc
      rcases hc with h | h
      · subst h; exact Or.inr (by simpa using ha)
      · exact ih false c h

theorem noNl_collapseWS (b : Bool) (s : List Char) : '\n' ∉ collapseWSAux b s := by
  intro h
  rcases collapseWSAux_mem s b '\n' h with h1 | h1
  · exact absurd h1 (by decide)
  · exact absurd h1 (by decide)

theorem replaceNlWsAux_id (s : List Char) (h : '\n' ∉ s) :
    replaceNlWsAux false s = s := by
  induction s with
  | nil => rfl
  | cons c rest ih =>
    have hc : ¬(c = '\n') := fun e => h (e ▸ List.mem_cons_self c rest)
    simp only [replaceNlWsAux, Bool.false_and, Bool.false_eq_true, if_false, hc,
      List.cons.injEq, true_and]
    exact ih fun hm => h (List.mem_cons_of_mem c hm)

theorem replaceNl3Aux_id (s : List Char) (h : '\n' ∉ s) :
    replaceNl3Aux 0 s = s := by
  induction s with
  | nil => rfl
  | cons c rest ih =>
    have hc : ¬(c = '\n') := fun e => h (e ▸ List.mem_cons_self c rest)
    simp [replaceNl3Aux, hc, emitRun]
    exact ih fun hm => h (List.mem_cons_of_mem c hm)

theorem splitAux_no_nl (s : List Char) (h : '\n' ∉ s) :
    ∀ acc, splitAux acc s = [acc.reverse ++ s] := by
  induction s with
  | nil => intro acc; simp [splitAux]
  | cons a rest ih =>
    intro acc
    have ha : ¬(a = '\n') := fun e => h (e ▸ List.mem_cons_self a rest)
    cases rest with
    | nil => simp [splitAux]
    | cons b rest2 =>
      have hrest : '\n' ∉ b :: rest2 := fun hm => h (List.mem_cons_of_mem a hm)
      simp [splitAux, ha, ih hrest (a :: acc)]

theorem dedupFilter_single (c : List Char) :
    dedupFilter [] [c] = if c.length < 10 then [] else [c] := by
  by_cases h : c.length < 10
  · simp [dedupFilter, h]
  · simp [dedupFilter, h]

/-- Normal form of `compressText`: the output is the whole
whitespace-collapsed input when that has at least 10 characters, and
the empty string otherwise. -/
theorem compressText_eq (s : String) :
    compressText s =
      if (collapseWS (replaceCRLF s.data)).length < 10 then ""
      else String.mk (collapseWS (replaceCRLF s.data)) := by
  have hnl : '\n' ∉ collapseWS (replaceCRLF s.data) := noNl_collapseWS false _
  have hnorm : normData s.data = collapseWS (replaceCRLF s.data) := by
    unfold normData
    rw [replaceNlWsAux_id _ hnl, replaceNl3Aux_id _ hnl]
  have hsplit : splitOnBlank (collapseWS (replaceCRLF s.data)) =
      [collapseWS (replaceCRLF s.data)] := by
    unfold splitOnBlank
    rw [splitAux_no_nl _ hnl []]
    simp
  unfold compressText
  rw [hnorm, hsplit, dedupFilter_single]
  by_cases h : (collapseWS (replaceCRLF s.data)).length < 10
  · simp [h, finalParas, joinBlank]
  · simp only [h, if_false]
    have hlt : (([collapseWS (replaceCRLF s.data)]).filter keyPred).length < 5 :=
      lt_of_le_of_lt (List.length_filter_le _ _) (by simp)
    simp [finalParas, hlt, joinBlank]

/-! ## Length bounds for step 1 -/

theorem collapseWSAux_length (s : List Char) :
    ∀ b, (collapseWSAux b s).length ≤ s.length := by
  induction s with
  | nil => intro b; simp [collapseWSAux]
  | cons a rest ih =>
    intro b
    by_cases ha : isWsJS a
    · cases b with
      | true =>
        simp only [collapseWSAux, ha, if_true]
        exact Nat.le_succ_of_le (ih true)
      | false =>
        simp only [collapseWSAux, ha, if_true, List.length_cons]
        exact Nat.succ_le_succ (ih true)
    · simp only [collapseWSAux, ha, if_false, Bool.false_eq_true, List.length_cons]
      exact Nat.succ_le_succ (ih (decide False))

theorem replaceCRLF_length (s : List Char) : (replaceCRLF s).length ≤ s.length := by
  induction s using replaceCRLF.induct with
  | case1 => simp [replaceCRLF]
  | case2 c => simp [replaceCRLF]
  | case3 a b rest h ih =>
    simp only [replaceCRLF, h, if_true, List.length_cons]
    omega
  | case4 a b rest h ih =>
    simp only [replaceCRLF, h, if_false, Bool.false_eq_true, List.length_cons]
    have := ih
    simp only [List.length_cons] at this ⊢
    omega

/-! ## Claim theorems about compressText -/

theorem compressText_no_nl (s : String) : '\n' ∉ (compressText s).data := by
  rw [compressText_eq]
  by_cases h : (collapseWS (replaceCRLF s.data)).length < 10
  · simp [h]
  · simp only [h, if_false]
    exact noNl_collapseWS false _

theorem paragraphCount_eq_one (s : String) (h : '\n' ∉ s.data) :
    paragraphCount s = 1 := by
  unfold paragraphCount splitOnBlank
  rw [splitAux_no_nl _ h []]
  rfl

/-- C2: for every text input `x`, the number of blank-line-delimited
paragraphs of `compressText (compressText x)` equals that of
`compressText x` (both are in fact 1: step 1 erases every newline, so
any output of `compressText` is a single paragraph). -/
theorem compress_paragraphCount_idem (x : String) :
    paragraphCount (compressText (compressText x)) = paragraphCount (compressText x) := by
  rw [paragraphCount_eq_one _ (compressText_no_nl _),
    paragraphCount_eq_one _ (compressText_no_nl _)]

/-- C7: for every text input `x`, the length of `compressText x` is at
most the length of `x`. -/
theorem compressText_length_le (x : String) :
    (compressText x).length ≤ x.length := by
  rw [compressText_eq]
  by_cases h : (collapseWS (replaceCRLF x.data)).length < 10
  · simp only [h, if_true]
    exact Nat.zero_le _
  · simp only [h, if_false]
    calc (String.mk (collapseWS (replaceCRLF x.data))).length
        = (collapseWS (replaceCRLF x.data)).length := rfl
      _ ≤ (replaceCRLF x.data).length := collapseWSAux_length _ false
      _ ≤ x.data.length := replaceCRLF_length _
      _ = x.length := rfl

/-- C10: for every non-empty input whose normalized form has no
paragraph of 10 or more characters, `compressText` returns the empty
string: all paragraphs are dropped by the minimum-length filter. -/
theorem compress_short_input_empty (x : String) (_hne : x ≠ "")
    (h : ∀ p ∈ splitOnBlank (normData x.data), p.length < 10) :
    compressText x = "" := by
  rw [compressText_eq]
  have hnl : '\n' ∉ collapseWS (replaceCRLF x.data) := noNl_collapseWS false _
  have hnorm : normData x.data = collapseWS (replaceCRLF x.data) := by
    unfold normData
    rw [replaceNlWsAux_id _ hnl, replaceNl3Aux_id _ hnl]
  have hc : (collapseWS (replaceCRLF x.data)).length < 10 := by
    apply h
    rw [hnorm]
    unfold splitOnBlank
    rw [splitAux_no_nl _ hnl []]
    simp
  simp [hc]

/-- Witness for C10 at the concrete input "hi". -/
theorem compress_short_input_empty_witness :
    (("hi" : String) ≠ "" ∧
      ∀ p ∈ splitOnBlank (normData ("hi" : String).data), p.length < 10) ∧
    compressText "hi" = "" :=
  ⟨⟨by decide, by decide⟩, compress_short_input_empty "hi" (by decide) (by decide)⟩

/-- C4 fails on the code: the input holds two distinct blank-line
delimited paragraphs, but `replace(/\s+/g, ' ')` erases the blank line,
so the subsequent split yields one single merged unit instead of the
two paragraph units of the input. -/
theorem normalize_merges_distinct_paragraphs :
    (splitOnBlank ("aaaaaaaaaa\n\nbbbbbbbbbb" : String).data).length = 2 ∧
    splitOnBlank (normData ("aaaaaaaaaa\n\nbbbbbbbbbb" : String).data) =
      [("aaaaaaaaaa bbbbbbbbbb" : String).data] ∧
    compressText "aaaaaaaaaa\n\nbbbbbbbbbb" = "aaaaaaaaaa bbbbbbbbbb" := by
  exact ⟨by decide, by decide, by decide⟩

/-- C6 fails on the code: the input repeats the paragraph "aaaaaaaaaa"
twice, yet the output of `compressText` contains both copies (merged
into one line by the whitespace collapse) instead of keeping exactly
one copy at its first position. -/
theorem duplicate_paragraph_not_removed :
    compressText "aaaaaaaaaa\n\naaaaaaaaaa" = "aaaaaaaaaa aaaaaaaaaa" ∧
    compressText "aaaaaaaaaa\n\naaaaaaaaaa" ≠ "aaaaaaaaaa" := by
  exact ⟨by decide, by decide⟩

/-! ## The extraction orchestrator (extractTextFromFile)

External effects are modelled by an environment `Env` that records the
outcome each external operation would have if attempted: the temp-file
write, the per-format extraction commands, and `unlink`.  The model
returns the `FileContentResult` the function returns, whether the
temporary artifact is still on disk at return, and the ordered list of
extraction methods attempted during the call. -/

/-- Result of one external extraction method: the text it printed, or
the message of the error it threw. -/
inductive MRes where
  | ok (text : String)
  | err (msg : String)
deriving DecidableEq

/-- `isErrM r` is true when the method threw. -/
def isErrM : MRes → Bool
  | .ok _ => false
  | .err _ => true

/-- Outcomes of every external operation `extractTextFromFile` can
perform.  `writeTemp` is `none` when the temp-file write succeeds and
`some msg` when it throws; `unlinkOk` tells whether deleting the temp
file succeeds when attempted. -/
structure Env where
  writeTemp : Option String
  readFileRes : MRes
  pdfParseRes : MRes
  strings20000Res : MRes
  strings10000Res : MRes
  strings5000Res : MRes
  mammothRes : MRes
  excelProcRes : MRes
  xlsxRead2000Res : MRes
  xlsxRead1000Res : MRes
  textractRes : MRes
  unlinkOk : Bool
deriving DecidableEq

/-- The extraction methods of fileProcessing.ts, named after the
commands they run.  `strings20000`, `strings10000` and `strings5000`
are the raw byte-level string-scan (`strings "<file>" | head -n N`)
with the per-call-site line caps. -/
inductive ExtMethod where
  | readFile
  | pdfParse
  | strings20000
  | strings10000
  | strings5000
  | mammoth
  | excelProc
  | xlsxRead2000
  | xlsxRead1000
  | textract
deriving DecidableEq

/-- Extension of a basename: the segment from its last dot to the end,
empty when there is no dot or when the last dot is the very first
character (Node treats a leading dot as a hidden-file marker, not an
extension separator). -/
def extnameL (base : List Char) : List Char :=
  match base.reverse.dropWhile (fun c => !(c = '.')) with
  | [] => []
  | _dot :: restRev =>
    if restRev = [] then []
    else '.' :: (base.reverse.takeWhile (fun c => !(c = '.'))).reverse

/-- `path.extname(fileName)` of Node (posix): the extension of the
basename from its last dot, empty when there is no dot or when the only
dot is the leading character of the basename. -/
def extname (fileName : String) : String :=
  String.mk (extnameL ((fileName.data.reverse.takeWhile (fun c => !(c = '/'))).reverse))

/-- `fileExtension.toLowerCase()`; `Char.toLower` models
`toLowerCase` (extensions are ASCII, where the two agree). -/
def strToLower (s : String) : String := String.mk (s.data.map Char.toLower)

/-- Format tag decided by the `switch (fileExtension)` of
fileProcessing.ts lines 121-231; the grouped cases of the switch map to
one tag per group, the `default` case to `unsupported`. -/
inductive Format where
  | txt
  | pdf
  | word
  | excel
  | power
  | unsupported (ext : String)
deriving DecidableEq

/-- Maps a (lower-cased) extension to the switch case it selects. -/
def detectFormat (ext : String) : Format :=
  if ext = ".txt" then .txt
  else if ext = ".pdf" then .pdf
  else if ext = ".docx" ∨ ext = ".doc" then .word
  else if ext = ".xlsx" ∨ ext = ".xls" then .excel
  else if ext = ".pptx" ∨ ext = ".ppt" then .power
  else .unsupported ext

/-- Outcome of the `switch` statement body (fileProcessing.ts lines
121-231): text assigned to `extractedText`, an exception escaping the
switch, or the early `return` of the `default` case. -/
inductive SwitchOut where
  | done (text : String)
  | thrown (msg : String)
  | unsupported (resultErr : String)
deriving DecidableEq

/-- The per-format extraction logic of the switch, with the fallback
chains exactly as in the source.  `gt30` and `gt20` are the outcomes of
the `fileSizeMB > 30` and `fileSizeMB > 20` size tests.  Returns the
switch outcome and the ordered list of methods attempted. -/
def runSwitch (env : Env) (fmt : Format) (gt30 gt20 : Bool) :
    SwitchOut × List ExtMethod :=
  match fmt with
  | .txt =>
    match env.readFileRes with
    | .ok t => (.done t, [.readFile])
    | .err m => (.thrown m, [.readFile])
  | .pdf =>
    if gt30 then
      match env.strings20000Res with
      | .ok t => (.done t, [.strings20000])
      | .err m =>
        match env.strings10000Res with
        | .ok t => (.done t, [.strings20000, .strings10000])
        | .err _ =>
          (.thrown ("PDF processing error: " ++ m), [.strings20000, .strings10000])
    else
      match env.pdfParseRes with
      | .ok t => (.done t, [.pdfParse])
      | .err m =>
        match env.strings10000Res with
        | .ok t => (.done t, [.pdfParse, .strings10000])
        | .err _ =>
          (.thrown ("PDF processing error: " ++ m), [.pdfParse, .strings10000])
  | .word =>
    match env.mammothRes with
    | .ok t => (.done t, [.mammoth])
    | .err _ =>
      match env.strings10000Res with
      | .ok t => (.done t, [.mammoth, .strings10000])
      | .err m2 => (.thrown m2, [.mammoth, .strings10000])
  | .excel =>
    match (if gt20 then env.xlsxRead2000Res else env.excelProcRes) with
    | .ok t => (.done t, [if gt20 then .xlsxRead2000 else .excelProc])
    | .err m1 =>
      match env.xlsxRead1000Res with
      | .ok t =>
        (.done t, [if gt20 then .xlsxRead2000 else .excelProc, .xlsxRead1000])
      | .err _ =>
        match env.strings5000Res with
        | .ok t =>
          (.done t,
            [if gt20 then .xlsxRead2000 else .excelProc, .xlsxRead1000, .strings5000])
        | .err _ =>
          (.thrown ("Excel processing error: " ++ m1),
            [if gt20 then .xlsxRead2000 else .excelProc, .xlsxRead1000, .strings5000])
  | .power =>
    match env.textractRes with
    | .ok t => (.done t, [.textract])
    | .err _ =>
      match env.strings10000Res with
      | .ok t => (.done t, [.textract, .strings10000])
      | .err m2 => (.thrown m2, [.textract, .strings10000])
  | .unsupported ext => (.unsupported ("Unsupported file type: " ++ ext), [])

/-- The marker `chunkText` inserts between the head and tail segments. -/
def truncMarker : String := "\n...[Content truncated due to size]...\n"

/-- `chunkText` of fileProcessing.ts lines 27-37 (`chunkSize` defaults
to 1024*1024 at the call site): texts not exceeding `chunkSize` pass
through; longer texts keep the first and last `chunkSize / 2`
characters around the truncation marker. -/
def chunkText (chunkSize : Nat) (text : String) : String :=
  if text.length ≤ chunkSize then text
  else
    String.mk (text.data.take (chunkSize / 2)) ++ truncMarker ++
      String.mk (text.data.drop (text.length - chunkSize / 2))

/-- Lines 233-237: extracted text longer than 5MB is chunked with the
default 1MB chunk size. -/
def finalText (t : String) : String :=
  if 5 * 1048576 < t.length then chunkText 1048576 t else t

/-- The `FileContentResult` TypeScript interface: extracted text plus
an optional error message; the error field is set exactly on the
failure returns. -/
structure FileContentResult where
  text : String
  error : Option String
deriving DecidableEq

/-- Observable outcome of one `extractTextFromFile` call: the returned
result, whether the temporary artifact written at the start of the call
is still on disk when the call returns, and the ordered list of
extraction methods attempted. -/
structure ExtractRun where
  result : FileContentResult
  tempFileRemains : Bool
  attempts : List ExtMethod
deriving DecidableEq

/-- `extractTextFromFile` of fileProcessing.ts lines 100-266.  The
control flow of the source: write the temp file (an exception there is
caught by the outer catch); run the switch; the `default` case returns
the Unsupported failure directly — without deleting the temp file;
on extracted text, truncate if over 5MB, delete the temp file
(`unlink` errors are logged and swallowed), return the text; on an
exception from the switch, the inner catch deletes the temp file and
rethrows, and the outer catch returns the failure result.  The byte
size stands in for the buffer: `fileSizeMB > 30` is
`fileSizeBytes > 30 * 1048576` (exact rather than float division). -/
def extractTextFromFile (env : Env) (fileName : String) (fileSizeBytes : Nat) :
    ExtractRun :=
  match env.writeTemp with
  | some m => ⟨⟨"", some ("Failed to extract text: " ++ m)⟩, false, []⟩
  | none =>
    let fmt := detectFormat (strToLower (extname fileName))
    let sw := runSwitch env fmt (decide (30 * 1048576 < fileSizeBytes))
      (decide (20 * 1048576 < fileSizeBytes))
    match sw.fst with
    | .unsupported msg => ⟨⟨"", some msg⟩, true, sw.snd⟩
    | .done t => ⟨⟨finalText t, none⟩, !env.unlinkOk, sw.snd⟩
    | .thrown m =>
      ⟨⟨"", some ("Failed to extract text: " ++ m)⟩, !env.unlinkOk, sw.snd⟩

/-- Environment in which every external operation succeeds. -/
def envAllOk : Env :=
  ⟨none, .ok "txt text", .ok "pdf text", .ok "s20 text", .ok "s10 text",
   .ok "s5 text", .ok "doc text", .ok "xl text", .ok "xl2000 text",
   .ok "xl1000 text", .ok "ppt text", true⟩

/-! ## C1: the unsupported branch leaks the temporary artifact -/

/-- C1 fails on the code: the `default` case of the switch (lines
226-231) returns the Unsupported failure directly from inside the
`try`, before any cleanup runs, so the temporary artifact written at
line 110 is still on disk when the call returns. -/
theorem unsupported_branch_keeps_temp_file :
    (extractTextFromFile envAllOk "notes.md" 100).result.error =
      some "Unsupported file type: .md" ∧
    (extractTextFromFile envAllOk "notes.md" 100).tempFileRemains = true ∧
    (extractTextFromFile envAllOk "a.txt" 100).tempFileRemains = false := by
  exact ⟨by decide, by decide, by decide⟩

/-! ## C9: unsupported extensions yield a descriptive Failure value -/

/-- The closed set of extensions the switch recognizes. -/
def supportedExts : List String :=
  [".txt", ".pdf", ".docx", ".doc", ".xlsx", ".xls", ".pptx", ".ppt"]

theorem detectFormat_unsupported (ext : String) (h : ext ∉ supportedExts) :
    detectFormat ext = .unsupported ext := by
  simp only [supportedExts, List.mem_cons, List.not_mem_nil, or_false] at h
  push_neg at h
  obtain ⟨h1, h2, h3, h4, h5, h6, h7, h8⟩ := h
  simp [detectFormat, h1, h2, h3, h4, h5, h6, h7, h8]

theorem startsWithL_self_append (n r : List Char) :
    startsWithL n (n ++ r) = true := by
  induction n with
  | nil => rfl
  | cons a as ih => simp [startsWithL, ih]

theorem startsWithL_self (n : List Char) : startsWithL n n = true := by
  simpa using startsWithL_self_append n []

theorem hasSubstr_of_starts (n h : List Char) (hs : startsWithL n h = true) :
    hasSubstr n h = true := by
  cases h with
  | nil => simpa [hasSubstr] using hs
  | cons c rest => simp [hasSubstr, hs]

theorem hasSubstr_append_left (pre n h : List Char)
    (hh : hasSubstr n h = true) : hasSubstr n (pre ++ h) = true := by
  induction pre with
  | nil => simpa
  | cons c cs ih => simp [hasSubstr, ih]

/-- C9: a file whose (case-insensitively compared) extension is not in
the supported set gets a Failure value whose reason mentions
"Unsupported" and embeds the offending extension. -/
theorem unsupported_extension_failure (env : Env) (fileName : String)
    (size : Nat) (h1 : env.writeTemp = none)
    (h2 : strToLower (extname fileName) ∉ supportedExts) :
    (extractTextFromFile env fileName size).result.text = "" ∧
    (extractTextFromFile env fileName size).result.error =
      some ("Unsupported file type: " ++ strToLower (extname fileName)) ∧
    hasSubstr "Unsupported".data
      ("Unsupported file type: " ++ strToLower (extname fileName)).data = true ∧
    hasSubstr (strToLower (extname fileName)).data
      ("Unsupported file type: " ++ strToLower (extname fileName)).data = true := by
  have hfmt := detectFormat_unsupported _ h2
  have hdata : ("Unsupported file type: " ++ strToLower (extname fileName)).data =
      "Unsupported file type: ".data ++ (strToLower (extname fileName)).data := rfl
  have hsplitU : "Unsupported file type: ".data =
      "Unsupported".data ++ " file type: ".data := by decide
  refine ⟨?_, ?_, ?_, ?_⟩
  · simp only [extractTextFromFile, h1, hfmt, runSwitch]
  · simp only [extractTextFromFile, h1, hfmt, runSwitch]
  · rw [hdata, hsplitU, List.append_assoc]
    exact hasSubstr_of_starts _ _ (startsWithL_self_append _ _)
  · rw [hdata]
    exact hasSubstr_append_left _ _ _
      (hasSubstr_of_starts _ _ (startsWithL_self _))

/-- Witness for C9 at the concrete file name "notes.md". -/
theorem unsupported_extension_failure_witness :
    (envAllOk.writeTemp = none ∧
      strToLower (extname "notes.md") ∉ supportedExts) ∧
    (extractTextFromFile envAllOk "notes.md" 100).result.error =
      some ("Unsupported file type: " ++ strToLower (extname "notes.md")) :=
  ⟨⟨rfl, by decide⟩,
    (unsupported_extension_failure envAllOk "notes.md" 100 rfl (by decide)).2.1⟩

/-! ## C8: the 5MB ceiling and head/tail truncation -/

/-- C8: when the switch extracts text longer than the 5MB ceiling, the
returned text is the first 524288 characters of the extracted text,
then the truncation marker, then its last 524288 characters, and the
total length stays at most the ceiling. -/
theorem oversized_text_truncated (env : Env) (fileName : String) (size : Nat)
    (t : String) (h1 : env.writeTemp = none)
    (h2 : (runSwitch env (detectFormat (strToLower (extname fileName)))
        (decide (30 * 1048576 < size)) (decide (20 * 1048576 < size))).fst =
      SwitchOut.done t)
    (h3 : 5 * 1048576 < t.length) :
    (extractTextFromFile env fileName size).result.text =
      String.mk (t.data.take 524288) ++ truncMarker ++
        String.mk (t.data.drop (t.length - 524288)) ∧
    (extractTextFromFile env fileName size).result.text.length ≤ 5 * 1048576 := by
  have hres : (extractTextFromFile env fileName size).result.text = finalText t := by
    simp only [extractTextFromFile, h1, h2]
  have hgt : ¬(t.length ≤ 1048576) := by omega
  have hfin : finalText t =
      String.mk (t.data.take 524288) ++ truncMarker ++
        String.mk (t.data.drop (t.length - 524288)) := by
    unfold finalText chunkText
    rw [if_pos h3, if_neg hgt]
  have hlen : t.data.length = t.length := rfl
  constructor
  · rw [hres, hfin]
  · rw [hres, hfin, String.length_append, String.length_append]
    have hmk : (String.mk (t.data.take 524288)).length =
        (t.data.take 524288).length := rfl
    have h5 : (String.mk (t.data.drop (t.length - 524288))).length =
        (t.data.drop (t.length - 524288)).length := rfl
    rw [hmk, h5, List.length_take, List.length_drop, hlen]
    have hmin : min 524288 t.length = 524288 := by
      apply min_eq_left
      omega
    have hm : truncMarker.length = 39 := by decide
    rw [hmin, hm]
    omega

/-- Environment whose plain-text read yields a 6-million-character
string. -/
def bigText : String := String.mk (List.replicate 6000000 'a')

/-- Environment for the C8 witness: the `.txt` read returns `bigText`. -/
def envBig : Env :=
  ⟨none, .ok bigText, .ok "", .ok "", .ok "", .ok "", .ok "", .ok "",
   .ok "", .ok "", .ok "", true⟩

/-- Witness for C8: a 6MB extracted text is truncated to at most the
5MB ceiling. -/
theorem oversized_text_truncated_witness :
    (envBig.writeTemp = none ∧
      (runSwitch envBig (detectFormat (strToLower (extname "big.txt")))
          (decide (30 * 1048576 < 100)) (decide (20 * 1048576 < 100))).fst =
        SwitchOut.done bigText ∧
      5 * 1048576 < bigText.length) ∧
    (extractTextFromFile envBig "big.txt" 100).result.text.length ≤
      5 * 1048576 := by
  have hsw : (runSwitch envBig (detectFormat (strToLower (extname "big.txt")))
      (decide (30 * 1048576 < 100)) (decide (20 * 1048576 < 100))).fst =
      SwitchOut.done bigText := rfl
  have hlen : 5 * 1048576 < bigText.length := by
    show 5 * 1048576 < (List.replicate 6000000 'a').length
    rw [List.length_replicate]
    norm_num
  exact ⟨⟨rfl, hsw, hlen⟩,
    (oversized_text_truncated envBig "big.txt" 100 bigText rfl hsw hlen).2⟩

/-! ## C5: the fallback policy is not uniform — plain text has none -/

/-- Environment for the C5 counterexample: the `.txt` read throws while
the raw string-scan would succeed. -/
def envTxtFail : Env :=
  ⟨none, .err "read failed", .ok "", .ok "", .ok "recovered text", .ok "",
   .ok "", .ok "", .ok "", .ok "", .ok "", true⟩

/-- C5 fails on the code for plain text: the `.txt` case has no
fallback, so a read failure surfaces directly as a Failure even though
the raw string-scan fallback would have succeeded; the scan is never
attempted. -/
theorem txt_failure_skips_fallback :
    (extractTextFromFile envTxtFail "a.txt" 100).result.error =
      some "Failed to extract text: read failed" ∧
    (extractTextFromFile envTxtFail "a.txt" 100).attempts = [ExtMethod.readFile] ∧
    ExtMethod.strings10000 ∉ (extractTextFromFile envTxtFail "a.txt" 100).attempts := by
  exact ⟨by decide, by decide, by decide⟩

/-- Outcome of the primary extraction method per format: the first
method its switch case runs. -/
def primaryRes (env : Env) (fmt : Format) (gt30 gt20 : Bool) : MRes :=
  match fmt with
  | .txt => env.readFileRes
  | .pdf => if gt30 then env.strings20000Res else env.pdfParseRes
  | .word => env.mammothRes
  | .excel => if gt20 then env.xlsxRead2000Res else env.excelProcRes
  | .power => env.textractRes
  | .unsupported _ => .ok ""

/-- The raw string-scan fallback each format degrades to (Excel uses
the 5000-line cap, the others the 10000-line cap). -/
def scanFallback : Format → ExtMethod
  | .excel => .strings5000
  | _ => .strings10000

/-- Outcome of that raw string-scan fallback. -/
def scanFallbackRes (env : Env) : Format → MRes
  | .excel => env.strings5000Res
  | _ => env.strings10000Res

/-- C5 amended: for the PDF, Word, Excel and PowerPoint formats, when
the primary method fails, any Failure outcome implies the raw
string-scan fallback was attempted and itself threw; and when that
scan does not throw, the call succeeds.  (Plain text is the exception
established by the counterexample: it has no fallback at all.) -/
theorem fallback_scan_before_failure (env : Env) (fileName : String)
    (size : Nat) (h1 : env.writeTemp = none)
    (hfmt : detectFormat (strToLower (extname fileName)) = .pdf ∨
      detectFormat (strToLower (extname fileName)) = .word ∨
      detectFormat (strToLower (extname fileName)) = .excel ∨
      detectFormat (strToLower (extname fileName)) = .power)
    (hp : isErrM (primaryRes env (detectFormat (strToLower (extname fileName)))
        (decide (30 * 1048576 < size)) (decide (20 * 1048576 < size))) = true) :
    ((extractTextFromFile env fileName size).result.error ≠ none →
      scanFallback (detectFormat (strToLower (extname fileName))) ∈
          (extractTextFromFile env fileName size).attempts ∧
        isErrM (scanFallbackRes env
          (detectFormat (strToLower (extname fileName)))) = true) ∧
    (isErrM (scanFallbackRes env
        (detectFormat (strToLower (extname fileName)))) = false →
      (extractTextFromFile env fileName size).result.error = none) := by
  rcases hfmt with hc | hc | hc | hc <;>
    rw [hc] at hp ⊢ <;>
    simp only [extractTextFromFile, h1, hc]
  · cases hb : decide (30 * 1048576 < size) <;> rw [hb] at hp
    · rcases henv : env.pdfParseRes with t | m
      · simp [primaryRes, isErrM, henv] at hp
      · rcases hs : env.strings10000Res with t2 | m2 <;>
          simp [runSwitch, scanFallback, scanFallbackRes, isErrM, henv, hs]
    · rcases henv : env.strings20000Res with t | m
      · simp [primaryRes, isErrM, henv] at hp
      · rcases hs : env.strings10000Res with t2 | m2 <;>
          simp [runSwitch, scanFallback, scanFallbackRes, isErrM, henv, hs]
  · rcases henv : env.mammothRes with t | m
    · simp [primaryRes, isErrM, henv] at hp
    · rcases hs : env.strings10000Res with t2 | m2 <;>
        simp [runSwitch, scanFallback, scanFallbackRes, isErrM, henv, hs]
  · cases hb : decide (20 * 1048576 < size) <;> rw [hb] at hp
    · rcases henv : env.excelProcRes with t | m
      · simp [primaryRes, isErrM, henv] at hp
      · rcases hx : env.xlsxRead1000Res with t2 | m2
        · simp [runSwitch, scanFallback, scanFallbackRes, isErrM, henv, hx, hb]
        · rcases hs : env.strings5000Res with t3 | m3 <;>
            simp [runSwitch, scanFallback, scanFallbackRes, isErrM, henv, hx, hs, hb]
    · rcases henv : env.xlsxRead2000Res with t | m
      · simp [primaryRes, isErrM, henv] at hp
      · rcases hx : env.xlsxRead1000Res with t2 | m2
        · simp [runSwitch, scanFallback, scanFallbackRes, isErrM, henv, hx, hb]
        · rcases hs : env.strings5000Res with t3 | m3 <;>
            simp [runSwitch, scanFallback, scanFallbackRes, isErrM, henv, hx, hs, hb]
  · rcases henv : env.textractRes with t | m
    · simp [primaryRes, isErrM, henv] at hp
    · rcases hs : env.strings10000Res with t2 | m2 <;>
        simp [runSwitch, scanFallback, scanFallbackRes, isErrM, henv, hs]

/-- Environment for the C5 amended witness: the Word primary and the
string-scan fallback both throw. -/
def envWordFail : Env :=
  ⟨none, .ok "", .ok "", .ok "", .err "scan failed", .ok "",
   .err "mammoth failed", .ok "", .ok "", .ok "", .ok "", true⟩

/-- Witness for the amended C5 on a concrete Word document. -/
theorem fallback_scan_before_failure_witness :
    (envWordFail.writeTemp = none ∧
      detectFormat (strToLower (extname "b.docx")) = Format.word ∧
      isErrM (primaryRes envWordFail
        (detectFormat (strToLower (extname "b.docx")))
        (decide (30 * 1048576 < 100)) (decide (20 * 1048576 < 100))) = true) ∧
    ((extractTextFromFile envWordFail "b.docx" 100).result.error ≠ none →
      scanFallback (detectFormat (strToLower (extname "b.docx"))) ∈
          (extractTextFromFile envWordFail "b.docx" 100).attempts ∧
        isErrM (scanFallbackRes envWordFail
          (detectFormat (strToLower (extname "b.docx")))) = true) ∧
    (isErrM (scanFallbackRes envWordFail
        (detectFormat (strToLower (extname "b.docx")))) = false →
      (extractTextFromFile envWordFail "b.docx" 100).result.error = none) := by
  have hfmt : detectFormat (strToLower (extname "b.docx")) = Format.word := by
    decide
  exact ⟨⟨rfl, hfmt, by decide⟩,
    fallback_scan_before_failure envWordFail "b.docx" 100 rfl
      (Or.inr (Or.inl hfmt)) (by decide)⟩

/-! ## C3: batch upload processing (routes.ts lines 126-190)

A file in an upload is modelled by its name and the outcome of its
extract-and-store step (the body of the `try` in `processBatch`): the
extracted text, or the message of the error thrown.  `allResults`
models `Promise.all` over one batch: it rejects with the first failing
file's wrapped error (in batch order — the deterministic rendering of
"first rejection to settle"), and resolves to the per-file records
otherwise.  Files whose own promise succeeds reach `storage.createFile`
even when a sibling promise rejects, so a batch's stored files are its
non-failing ones; once a batch rejects, the route's catch sends the
500 response and later batches are never started. -/

/-- One uploaded file: its `originalname` and the outcome of its
extraction step. -/
structure BatchFile where
  name : String
  extraction : Except String String

/-- Whether this file's processing throws. -/
def isFail (f : BatchFile) : Bool :=
  match f.extraction with
  | .error _ => true
  | .ok _ => false

/-- The wrapped message rethrown for a failing file (routes.ts line
169): `Failed to process file <name>: <message>`. -/
def failMsg (f : BatchFile) : String :=
  match f.extraction with
  | .error e => "Failed to process file " ++ f.name ++ ": " ++ e
  | .ok _ => ""

/-- `Promise.all` over one batch: the names of the uploaded files, or
the first failing file's wrapped error. -/
def allResults : List BatchFile → Except String (List String)
  | [] => .ok []
  | f :: rest =>
    match f.extraction with
    | .error e => .error ("Failed to process file " ++ f.name ++ ": " ++ e)
    | .ok _ =>
      match allResults rest with
      | .error e2 => .error e2
      | .ok names => .ok (f.name :: names)

/-- Files of a batch that reach `storage.createFile`: the non-failing
ones (their concurrently started promises run to completion even when a
sibling rejects). -/
def storedOf (b : List BatchFile) : List String :=
  (b.filter (fun f => !(isFail f))).map (fun f => f.name)

/-- Splits the uploaded files into batches of `batchSize = 5`
(`fileSchemas.slice(i, i + 5)` of routes.ts line 179); `cur` holds the
current batch in reverse. -/
def chunksAux (cur : List BatchFile) : List BatchFile → List (List BatchFile)
  | [] => if cur.isEmpty then [] else [cur.reverse]
  | f :: rest =>
    if cur.length = 4 then ((f :: cur).reverse) :: chunksAux [] rest
    else chunksAux (f :: cur) rest

/-- The batches of five processed by the upload route. -/
def chunksOf (l : List BatchFile) : List (List BatchFile) := chunksAux [] l

/-- The sequential loop over batches (routes.ts lines 178-182): each
batch is awaited in turn; the first rejected batch aborts the loop and
the route answers 500 with that error.  Returns the route outcome (the
uploaded-file list of the 200 response, or the 500 error message) and
the names that reached storage. -/
def runBatches : List (List BatchFile) → List String → List String →
    Except String (List String) × List String
  | [], acc, stored => (.ok acc, stored)
  | b :: rest, acc, stored =>
    match allResults b with
    | .ok names => runBatches rest (acc ++ names) (stored ++ storedOf b)
    | .error e => (.error e, stored ++ storedOf b)

/-- The whole upload handler over a list of files. -/
def uploadFiles (files : List BatchFile) :
    Except String (List String) × List String :=
  runBatches (chunksOf files) [] []

theorem allResults_ok (b : List BatchFile) (h : ∀ f ∈ b, isFail f = false) :
    ∃ names, allResults b = .ok names := by
  induction b with
  | nil => exact ⟨[], rfl⟩
  | cons f rest ih =>
    have hf := h f (List.mem_cons_self f rest)
    rcases ih (fun g hg => h g (List.mem_cons_of_mem f hg)) with ⟨names, hn⟩
    rcases he : f.extraction with e | t
    · simp [isFail, he] at hf
    · exact ⟨f.name :: names, by simp [allResults, he, hn]⟩

theorem allResults_err (b : List BatchFile) (h : ∃ f ∈ b, isFail f = true) :
    ∃ g ∈ b, isFail g = true ∧ allResults b = .error (failMsg g) := by
  induction b with
  | nil => simp at h
  | cons f rest ih =>
    rcases he : f.extraction with e | t
    · refine ⟨f, List.mem_cons_self f rest, ?_, ?_⟩
      · simp [isFail, he]
      · simp [allResults, he, failMsg]
    · have hf : isFail f = false := by simp [isFail, he]
      have hrest : ∃ g ∈ rest, isFail g = true := by
        rcases h with ⟨g, hg, hgf⟩
        rcases List.mem_cons.mp hg with rfl | hg2
        · rw [hf] at hgf
          exact absurd hgf (by simp)
        · exact ⟨g, hg2, hgf⟩
      rcases ih hrest with ⟨g, hg, hgf, hres⟩
      refine ⟨g, List.mem_cons_of_mem f hg, hgf, ?_⟩
      simp [allResults, he, hres]

theorem runBatches_err (bs : List (List BatchFile)) :
    ∀ acc stored, (∃ b ∈ bs, ∃ f ∈ b, isFail f = true) →
      ∃ g, (∃ b ∈ bs, g ∈ b) ∧ isFail g = true ∧
        (runBatches bs acc stored).fst = .error (failMsg g) := by
  induction bs with
  | nil => intro acc stored h; simp at h
  | cons b rest ih =>
    intro acc stored h
    by_cases hb : ∃ f ∈ b, isFail f = true
    · rcases allResults_err b hb with ⟨g, hg, hgf, hres⟩
      exact ⟨g, ⟨b, List.mem_cons_self b rest, hg⟩, hgf,
        by simp [runBatches, hres]⟩
    · have hball : ∀ f ∈ b, isFail f = false := by
        intro f hf
        cases hq : isFail f
        · rfl
        · exact absurd ⟨f, hf, hq⟩ hb
      rcases allResults_ok b hball with ⟨names, hn⟩
      have hrest : ∃ b2 ∈ rest, ∃ f ∈ b2, isFail f = true := by
        rcases h with ⟨b2, hb2m, hf⟩
        rcases List.mem_cons.mp hb2m with rfl | hm
        · exact absurd hf hb
        · exact ⟨b2, hm, hf⟩
      rcases ih (acc ++ names) (stored ++ storedOf b) hrest with
        ⟨g, ⟨b2, hb2m, hgm⟩, hgf, hres⟩
      exact ⟨g, ⟨b2, List.mem_cons_of_mem b hb2m, hgm⟩, hgf,
        by simp [runBatches, hn, hres]⟩

theorem chunksAux_join (l : List BatchFile) :
    ∀ cur, (chunksAux cur l).flatten = cur.reverse ++ l := by
  induction l with
  | nil =>
    intro cur
    by_cases hc : cur.isEmpty
    · rcases cur with _ | ⟨a, cs⟩
      · simp [chunksAux]
      · simp [List.isEmpty] at hc
    · simp [chunksAux, hc]
  | cons f rest ih =>
    intro cur
    by_cases hl : cur.length = 4
    · simp [chunksAux, hl, ih []]
    · simp [chunksAux, hl, ih (f :: cur)]

theorem mem_chunksOf (f : BatchFile) (l : List BatchFile) (h : f ∈ l) :
    ∃ b ∈ chunksOf l, f ∈ b := by
  have hj : (chunksOf l).flatten = l := by
    simpa [chunksOf] using chunksAux_join l []
  rw [← hj] at h
  exact List.mem_flatten.mp h

/-- Example upload where the first of six files fails extraction and
the other five succeed (two batches: the sixth file is in batch 2). -/
def exFiles : List BatchFile :=
  [⟨"f1", .error "boom"⟩, ⟨"f2", .ok "t2"⟩, ⟨"f3", .ok "t3"⟩,
   ⟨"f4", .ok "t4"⟩, ⟨"f5", .ok "t5"⟩, ⟨"f6", .ok "t6"⟩]

/-- C3 fails on the code: one failing file makes `Promise.all` reject
and the route answers 500 with that file's error; the successes of the
same batch are never reported, and the sixth file — in the next batch —
is never extracted or stored at all. -/
theorem failed_file_discards_batch :
    (uploadFiles exFiles).fst = Except.error "Failed to process file f1: boom" ∧
    (uploadFiles exFiles).snd = ["f2", "f3", "f4", "f5"] ∧
    "f6" ∉ (uploadFiles exFiles).snd := by
  refine ⟨rfl, rfl, ?_⟩
  decide

/-- C3 amended: when any document of the upload fails extraction, the
whole upload request fails; the 500 error message names one failing
document's filename and reason, no per-file results are returned, and
documents of batches after the first failing one are never processed
(successes already started in the failing batch may still reach
storage). -/
theorem failed_file_aborts_upload (files : List BatchFile)
    (h : ∃ f ∈ files, isFail f = true) :
    ∃ g ∈ files, isFail g = true ∧
      (uploadFiles files).fst = Except.error (failMsg g) := by
  rcases h with ⟨f, hf, hff⟩
  rcases mem_chunksOf f files hf with ⟨b, hb, hfb⟩
  rcases runBatches_err (chunksOf files) [] [] ⟨b, hb, f, hfb, hff⟩ with
    ⟨g, ⟨b2, hb2, hgb⟩, hgf, hres⟩
  have hgmem : g ∈ files := by
    have hj : (chunksOf files).flatten = files := by
      simpa [chunksOf] using chunksAux_join files []
    rw [← hj]
    exact List.mem_flatten.mpr ⟨b2, hb2, hgb⟩
  exact ⟨g, hgmem, hgf, hres⟩

/-- Single-file upload whose extraction fails. -/
def exFail1 : List BatchFile := [⟨"f1", .error "boom"⟩]

/-- Witness for the amended C3 on a concrete failing upload. -/
theorem failed_file_aborts_upload_witness :
    (∃ f ∈ exFail1, isFail f = true) ∧
    ∃ g ∈ exFail1, isFail g = true ∧
      (uploadFiles exFail1).fst = Except.error (failMsg g) :=
  ⟨⟨⟨"f1", .error "boom"⟩, List.mem_cons_self _ _, rfl⟩,
    failed_file_aborts_upload exFail1
      ⟨⟨"f1", .error "boom"⟩, List.mem_cons_self _ _, rfl⟩⟩
